import Mathlib

/-!
# k8s-events-reporter: scheduler, controller and configuration

A shallow embedding of `pkg/scheduler/scheduler.go`, `pkg/controller/controller.go`
and `pkg/config/config.go`, followed by the properties proved about them.

Conventions of the embedding

* Go strings are Lean strings; `len(s) > 0` is `0 < s.length` (both say "not the empty string").
* A Go slice whose nil-ness can be observed (the fields of `Email`, which reach
  `reflect.DeepEqual`) is an `Option (List α)`: `none` is the nil slice, `some xs` a non-nil
  slice with elements `xs`. Slices that are only ranged over are plain lists.
* Go maps are association lists with pairwise distinct keys.
* What the code asks of the outside world (the event source, the clock, the mail transport,
  `time.ParseDuration`, the `String()` rendering of a timestamp) is a parameter of the
  function that asks for it. Effects on the outside world (channel sends, queries issued,
  log lines, transport sessions opened) are returned as traces.
-/

namespace EventsReporter

/-! ## Timestamps: `time.Time` of the Go standard library, wrapped by `metav1.Time` -/

/-- The flag bit of `wall` that says a monotonic clock reading is present (`1 << 63`). -/
def hasMonotonic : Nat := 2 ^ 63

/-- The low 30 bits of `wall` hold the nanoseconds (`1<<30 - 1`). -/
def nsecMask : Nat := 2 ^ 30 - 1

/-- Position of the seconds field inside `wall`. -/
def nsecShift : Nat := 30

/-- Seconds from Jan 1 year 1 to Jan 1 1885 (`wallToInternal` of package time). -/
def wallToInternal : Int := (1884 * 365 + 1884 / 4 - 1884 / 100 + 1884 / 400) * 86400

/-- Seconds from Jan 1 year 1 to Jan 1 1970 (`unixToInternal` of package time). -/
def unixToInternal : Int := (1969 * 365 + 1969 / 4 - 1969 / 100 + 1969 / 400) * 86400

/-- The three fields of a Go `time.Time`: `wall` (uint64), `ext` (int64) and the location
pointer `loc` (`none` is the nil pointer, which means UTC; `some p` is the address `p`).
`metav1.Time` is a struct with this one embedded field, so the Go operator `==` on two
`metav1.Time` values compares exactly these three fields; it is Lean's `=` on `Time`. -/
structure Time where
  wall : Nat
  ext : Int
  loc : Option Nat
deriving DecidableEq, Repr

/-- The nanoseconds of a time: `int32(t.wall & nsecMask)`. -/
def Time.nsec (t : Time) : Int := ((t.wall &&& nsecMask : Nat) : Int)

/-- The seconds since Jan 1 year 1: read from `wall` when the monotonic flag is set
(`wallToInternal + int64(t.wall<<1>>(nsecShift+1))`, the shift left being one of uint64),
from `ext` otherwise. -/
def Time.sec (t : Time) : Int :=
  if t.wall &&& hasMonotonic ≠ 0 then
    wallToInternal + (((((t.wall <<< 1) % 2 ^ 64) >>> (nsecShift + 1)) : Nat) : Int)
  else t.ext

/-- Go's `t.Before(u)`: by monotonic readings when both times have one, else by wall clock. -/
def Time.Before (t u : Time) : Bool :=
  if t.wall &&& u.wall &&& hasMonotonic ≠ 0 then decide (t.ext < u.ext)
  else
    let ts := t.sec
    let us := u.sec
    decide (ts < us) || (decide (ts = us) && decide (t.nsec < u.nsec))

/-- Go's `t.After(u)`. -/
def Time.After (t u : Time) : Bool :=
  if t.wall &&& u.wall &&& hasMonotonic ≠ 0 then decide (t.ext > u.ext)
  else
    let ts := t.sec
    let us := u.sec
    decide (ts > us) || (decide (ts = us) && decide (t.nsec > u.nsec))

/-- Go's `t.Equal(u)`: the two times denote the same instant, whatever their location. -/
def Time.Equal (t u : Time) : Bool :=
  if t.wall &&& u.wall &&& hasMonotonic ≠ 0 then decide (t.ext = u.ext)
  else decide (t.sec = u.sec) && decide (t.nsec = u.nsec)

/-! ## Data model -/

/-- The part of `v1.ObjectReference` the reporter reads. -/
structure ObjectReference where
  Kind : String
deriving DecidableEq, Repr

/-- The part of `v1.Event` the reporter reads. `Name` is `ObjectMeta.Name`; `EventType` is
the Go field `Type`. -/
structure Event where
  Name : String
  InvolvedObject : ObjectReference
  EventType : String
  Reason : String
  Message : String
  LastTimestamp : Time
deriving DecidableEq, Repr

/-- A `fields.Set` (`map[string]string`) as an association list. -/
abbrev FieldSet := List (String × String)

/-- The map assignment `m[k] = v`: overwrite the entry of `k`, or add one. -/
def mapSet {β : Type} (m : List (String × β)) (k : String) (v : β) : List (String × β) :=
  match m with
  | [] => [(k, v)]
  | (k', v') :: rest => if k' = k then (k, v) :: rest else (k', v') :: mapSet rest k v

/-- The map read `m[k]` with its presence flag. -/
def mapGet {β : Type} (m : List (String × β)) (k : String) : Option β :=
  match m with
  | [] => none
  | (k', v') :: rest => if k' = k then some v' else mapGet rest k

/-- `config.Report`. `Interval` is a `time.Duration`, a count of nanoseconds. -/
structure Report where
  Description : String
  Kind : String
  Reasons : List String
  IntervalString : String
  EmailRecipients : Option (List String)
  Interval : Int
deriving DecidableEq, Repr

/-- `config.EmailSettings`. -/
structure EmailSettings where
  SMTPServer : String
  Port : Int
  Username : String
  Password : String
deriving DecidableEq, Repr

/-- `config.Config`. -/
structure Config where
  EmailSettings : EmailSettings
  Reports : List (String × Report)
deriving DecidableEq, Repr

/-- `controller.Email`. -/
structure Email where
  Recipients : Option (List String)
  Body : Option (List String)
  Subject : String
deriving DecidableEq, Repr

/-- The zero value `controller.Email{}`: nil recipients, nil body, empty subject. -/
def Email.zero : Email := { Recipients := none, Body := none, Subject := "" }

/-- Go's `len` of a slice. -/
def sliceLen {α : Type} (s : Option (List α)) : Nat :=
  match s with
  | none => 0
  | some xs => xs.length

/-- Go's `append(s, x)`: the result is never nil. -/
def sliceAppend {α : Type} (s : Option (List α)) (x : α) : Option (List α) :=
  match s with
  | none => some [x]
  | some xs => some (xs ++ [x])

/-- The elements of a slice, as ranged over. -/
def sliceElems {α : Type} (s : Option (List α)) : List α :=
  match s with
  | none => []
  | some xs => xs

/-- The state of a `Scheduler`. The client, mutex, channel and logger handles are not state
of the embedding: the client is a parameter of `getEvents`, the channel and the log are
traces it returns. -/
structure Scheduler where
  name : String
  lastReportTime : Time
  report : Report
  fieldSets : List FieldSet
  events : List Event
  email : Email
deriving DecidableEq, Repr

/-! ## `pkg/scheduler/scheduler.go` -/

/-- The loop of `filterEventTimeRange`: `allEvents` is the accumulator. -/
def filterLoop (lastReportTime : Time) : List Event → List Event → List Event
  | [], allEvents => allEvents
  | event :: rest, allEvents =>
    if lastReportTime.Before event.LastTimestamp || decide (lastReportTime = event.LastTimestamp) then
      filterLoop lastReportTime rest (allEvents ++ [event])
    else
      filterLoop lastReportTime rest allEvents

/-- `(*Scheduler).filterEventTimeRange`. -/
def Scheduler.filterEventTimeRange (s : Scheduler) (events : List Event) : List Event :=
  filterLoop s.lastReportTime events []

/-- The loop of `getFieldSets`: `fieldSets` is the accumulator. -/
def getFieldSetsLoop (involvedObjectKind : String) : List String → List FieldSet → List FieldSet
  | [], fieldSets => fieldSets
  | reason :: rest, fieldSets =>
    let field : FieldSet := []
    let field := if 0 < involvedObjectKind.length then
      mapSet field "involvedObject.kind" involvedObjectKind else field
    let field := if 0 < reason.length then mapSet field "reason" reason else field
    getFieldSetsLoop involvedObjectKind rest (fieldSets ++ [field])

/-- The function `getFieldSets`. -/
def getFieldSets (involvedObjectKind : String) (reasons : List String) : List FieldSet :=
  getFieldSetsLoop involvedObjectKind reasons []

/-- `NewScheduler`, with the result of `metav1.Now()` as the parameter `now`. -/
def NewScheduler (now : Time) (name : String) (report : Report) : Scheduler :=
  { name := name
    lastReportTime := now
    report := report
    fieldSets := getFieldSets report.Kind report.Reasons
    events := []
    email := Email.zero }

/-- A line written to the logger: level, message and the value of the field attached to it
(the error, the subject or the time). -/
structure LogLine where
  level : String
  msg : String
  field : String
deriving DecidableEq, Repr

/-- The query loop of `getEvents`. `client i field` is what the event source answers to the
`i`-th `List` call of the cycle when asked with the selector of `field`. `asked` collects the
calls made, `events` is the accumulator of the source. The first component of the result is
the list of calls made; the second is the error that ended the loop or the events gathered. -/
def queryLoop (client : Nat → FieldSet → Except String (List Event)) :
    List FieldSet → List FieldSet → List Event → List FieldSet × Except String (List Event)
  | [], asked, events => (asked, .ok events)
  | field :: rest, asked, events =>
    match client asked.length field with
    | .error err => (asked ++ [field], .error err)
    | .ok e => queryLoop client rest (asked ++ [field]) (events ++ e)

/-- The line `fmt.Sprintf` builds for one event; `timeString` is the `String()` method of
the timestamp. -/
def bodyLine (timeString : Time → String) (event : Event) : String :=
  "Name:" ++ event.Name ++ "\nKind:" ++ event.InvolvedObject.Kind ++ "\nType:" ++ event.EventType
    ++ "\nReason:" ++ event.Reason ++ "\nMessage:" ++ event.Message
    ++ "\nLastTimestamp:" ++ timeString event.LastTimestamp ++ "\n"

/-- The loop of `getEvents` that builds the body; `body` is the accumulator. -/
def bodyLoop (timeString : Time → String) : List Event → Option (List String) → Option (List String)
  | [], body => body
  | event :: rest, body => bodyLoop timeString rest (sliceAppend body (bodyLine timeString event))

/-- What one run of `getEvents` leaves behind: the scheduler state, the Emails sent on
`receiverChan` in order (`reportEvents` is the channel send under the mutex), the `List`
calls made and the log lines written. -/
structure Cycle where
  sched : Scheduler
  sent : List Email
  queries : List FieldSet
  logs : List LogLine
deriving DecidableEq, Repr

/-- `(*Scheduler).getEvents`. `now` is the result of `metav1.Now()` on the last line. -/
def Scheduler.getEvents (client : Nat → FieldSet → Except String (List Event))
    (timeString : Time → String) (now : Time) (s : Scheduler) : Cycle :=
  let s := { s with email := { Recipients := s.report.EmailRecipients, Body := none, Subject := "" } }
  match queryLoop client s.fieldSets [] [] with
  | (queries, .error err) =>
    { sched := s, sent := [], queries := queries,
      logs := [{ level := "error", msg := "could not get events", field := err }] }
  | (queries, .ok events) =>
    let s := { s with events := s.filterEventTimeRange events }
    let first : Option (List String) × List Email × List LogLine :=
      if 0 < s.events.length then
        (bodyLoop timeString s.events none, [], [])
      else
        (none, [Email.zero],
          [{ level := "info", msg := "No events were found for the specified time range",
             field := timeString s.lastReportTime }])
    let body := first.1
    let second : Scheduler × List Email :=
      if 0 < sliceLen body then
        let email := { s.email with
          Body := body
          Subject := "Event report: " ++ s.report.Description ++ " since ["
            ++ timeString s.lastReportTime ++ "]" }
        ({ s with email := email }, first.2.1 ++ [email])
      else
        (s, first.2.1)
    { sched := { second.1 with lastReportTime := now }, sent := second.2, queries := queries,
      logs := first.2.2 }

/-! ## `pkg/controller/controller.go` -/

/-- The `gomail.Message` built by `sendEmail`: its three headers and its one body part. -/
structure Message where
  From : List String
  To : List String
  Subject : List String
  contentType : String
  body : String
deriving DecidableEq, Repr

/-- The `gomail.Dialer` returned by `gomail.NewDialer`. -/
structure Dialer where
  Host : String
  Port : Int
  Username : String
  Password : String
  SSL : Bool
deriving DecidableEq, Repr

/-- The function `gomail.NewDialer`. -/
def NewDialer (host : String) (port : Int) (username password : String) : Dialer :=
  { Host := host, Port := port, Username := username, Password := password,
    SSL := decide (port = 465) }

/-- The state of a `Controller`: the settings and the pointer `message` (nil until the first
`sendEmail`). The channel and the logger are traces. -/
structure Controller where
  emailSettings : EmailSettings
  message : Option Message
deriving DecidableEq, Repr

/-- `NewController`. -/
def NewController (emailSettings : EmailSettings) : Controller :=
  { emailSettings := emailSettings, message := none }

/-- What `sendEmail` returns and does: the controller state afterwards, the returned error
(`none` is nil) and the transport sessions opened (each `DialAndSend` call, with the dialer
and the message it was given). -/
structure SendResult where
  ctl : Controller
  err : Option String
  dials : List (Dialer × Message)
deriving DecidableEq, Repr

/-- `(*Controller).sendEmail`. `dialAndSend` is `(*gomail.Dialer).DialAndSend`: the error the
transport answers with, `none` for success. -/
def Controller.sendEmail (dialAndSend : Dialer → Message → Option String) (c : Controller)
    (email : Email) : SendResult :=
  let message : Message :=
    { From := ["event-reporter@test.com"]
      To := sliceElems email.Recipients
      Subject := [email.Subject]
      contentType := "text/html"
      body := String.intercalate "\n" (sliceElems email.Body) }
  let c := { c with message := some message }
  if c.emailSettings.SMTPServer.length = 0 then
    { ctl := c, err := some "no smtp server is configured", dials := [] }
  else if c.emailSettings.Port = 0 then
    { ctl := c, err := some "no port specified in email settings", dials := [] }
  else
    let dialer := NewDialer c.emailSettings.SMTPServer c.emailSettings.Port
      c.emailSettings.Username c.emailSettings.Password
    match dialAndSend dialer message with
    | some err => { ctl := c, err := some err, dials := [(dialer, message)] }
    | none => { ctl := c, err := none, dials := [(dialer, message)] }

/-- The case the `select` of `Start` takes in one iteration: an Email received on
`c.Receiver`, or the stop channel. -/
inductive Select where
  | report (r : Email)
  | stop
deriving DecidableEq, Repr

/-- What a run of `Start` does to the outside: the calls of `sendEmail` (the delivery
attempts, with the Email each was given), the transport sessions opened, the log lines. -/
structure Effects where
  attempts : List Email
  dials : List (Dialer × Message)
  logs : List LogLine
deriving DecidableEq, Repr

/-- `(*Controller).Start` on the sequence of cases its `select` takes. `net i` is the
behaviour of the mail transport during the `i`-th delivery attempt. The loop returns at
`stop`; when the sequence ends the loop is waiting in `select`, and the state reached so far
is the result. -/
def Controller.Start (net : Nat → Dialer → Message → Option String) :
    List Select → Controller → Effects → Controller × Effects
  | [], c, w => (c, w)
  | Select.stop :: _, c, w => (c, w)
  | Select.report report :: rest, c, w =>
    if report ≠ Email.zero then
      let w : Effects := { w with logs := w.logs ++
        [{ level := "info", msg := "report received", field := report.Subject }] }
      let r := c.sendEmail (net w.attempts.length) report
      let w : Effects := { w with attempts := w.attempts ++ [report], dials := w.dials ++ r.dials }
      let w : Effects := match r.err with
        | some err => { w with logs := w.logs ++
            [{ level := "error", msg := "couldn not send email", field := err }] }
        | none => w
      Controller.Start net rest r.ctl w
    else
      Controller.Start net rest c w

/-! ## `pkg/config/config.go` -/

/-- The duration `time.Hour`, in nanoseconds. -/
def Hour : Int := 60 * (60 * (1000 * (1000 * 1000)))

/-- The loop of `parseConfig` over the entries of `c.Reports`, in the order this run of the
map iteration visits them. `parseDuration` is `time.ParseDuration`. The result is the
configuration as the loop leaves it and the returned error (`none` is nil). -/
def parseConfigLoop (parseDuration : String → Except String Int) :
    List (String × Report) → Config → Config × Option String
  | [], c => (c, none)
  | (name, report) :: rest, c =>
    if report.IntervalString = "" then
      let report := { report with Interval := 24 * Hour }
      parseConfigLoop parseDuration rest { c with Reports := mapSet c.Reports name report }
    else
      match parseDuration report.IntervalString with
      | .error err => (c, some ("cannot parse duration for interval: " ++ err))
      | .ok interval =>
        let report := { report with Interval := interval }
        parseConfigLoop parseDuration rest { c with Reports := mapSet c.Reports name report }

/-- `(*Config).parseConfig`. -/
def Config.parseConfig (parseDuration : String → Except String Int) (c : Config) :
    Config × Option String :=
  parseConfigLoop parseDuration c.Reports c

/-! ## Concrete inputs used below -/

/-- Two decimal digits. -/
def pad2 (n : Nat) : String :=
  String.mk [Char.ofNat (48 + n / 10 % 10), Char.ofNat (48 + n % 10)]

/-- Four decimal digits. -/
def pad4 (n : Nat) : String := pad2 (n / 100) ++ pad2 (n % 100)

/-- The text `time.Time.String()` gives for a time in UTC that has no monotonic reading and
no fraction of a second: `2006-01-02 15:04:05 +0000 UTC`. Used as the `timeString` of the
concrete scenarios only; the date is computed from the day count since 1 March of year 0. -/
def utcString (t : Time) : String :=
  let abs := t.sec.toNat
  let rem := abs % 86400
  let z := abs / 86400 + 306
  let era := z / 146097
  let doe := z % 146097
  let yoe := (doe - doe / 1460 + doe / 36524 - doe / 146096) / 365
  let doy := doe - (365 * yoe + yoe / 4 - yoe / 100)
  let mp := (5 * doy + 2) / 153
  let d := doy - (153 * mp + 2) / 5 + 1
  let m := if mp < 10 then mp + 3 else mp - 9
  let y := yoe + era * 400 + (if m ≤ 2 then 1 else 0)
  pad4 y ++ "-" ++ pad2 m ++ "-" ++ pad2 d ++ " " ++ pad2 (rem / 3600) ++ ":"
    ++ pad2 (rem % 3600 / 60) ++ ":" ++ pad2 (rem % 60) ++ " +0000 UTC"

/-- The time `time.Date(2019, time.January, day, 0, 0, 0, 0, time.UTC)`: no monotonic
reading, seconds in `ext`, nil location. -/
def jan2019 (day : Nat) : Time :=
  { wall := 0, ext := unixToInternal + 1546300800 + 86400 * ((day : Int) - 1), loc := none }

/-- An event as `TestFilterEventTimeRange` and `TestGetEvents` build it: a normal `Started`
event of a pod, with the given name and last timestamp. -/
def podEvent (name : String) (ts : Time) : Event :=
  { Name := name, InvolvedObject := { Kind := "Pod" }, EventType := "Normal", Reason := "Started",
    Message := "some verbose message: 1", LastTimestamp := ts }

/-- The report of `TestGetEvents`. -/
def testReport : Report :=
  { Description := "test scheduler", Kind := "Pod", Reasons := ["Started"], IntervalString := "",
    EmailRecipients := some ["test@test.com"], Interval := 0 }

/-- The scheduler of `TestGetEvents`: built by `NewScheduler`, its watermark then set to the
given time. -/
def testScheduler (watermark : Time) : Scheduler :=
  { NewScheduler watermark "test_sched" testReport with lastReportTime := watermark }

/-- The instant 2019-01-15T00:00:00Z as `metav1.Time.UnmarshalJSON` leaves it after decoding
an event from the API: `time.Parse` followed by `.Local()`, so no monotonic reading, the
seconds in `ext`, and the location pointer `&localLoc` (address 1 here) instead of nil. -/
def jan15Local : Time := { jan2019 15 with loc := some 1 }

/-- The instant 2019-01-15T00:00:00Z as `metav1.Now()` would return it at that moment: the
monotonic flag and the seconds since 1885 in `wall`, a monotonic reading (5 here) in `ext`,
and the location pointer `&localLoc`. -/
def jan15Now : Time :=
  { wall := hasMonotonic + ((jan2019 15).ext - wallToInternal).toNat * 2 ^ 30, ext := 5, loc := some 1 }

/-- A stand-in for `time.ParseDuration` that knows the string "1h" only. -/
def parseHourOnly (str : String) : Except String Int :=
  if str = "1h" then .ok Hour else .error ("time: invalid duration " ++ str)

/-- A configuration with a report that gives no interval and one that asks for "1h". -/
def testConfig : Config :=
  { EmailSettings := { SMTPServer := "smtp.test.com", Port := 25, Username := "", Password := "" }
    Reports := [("daily", testReport), ("hourly", { testReport with IntervalString := "1h" })] }

/-! ## Lemmas on the time model and the loops -/

theorem Time.After_eq_Before (t u : Time) : t.After u = u.Before t := by
  unfold Time.After Time.Before
  rw [Nat.land_comm t.wall u.wall]
  split
  · simp only [gt_iff_lt]
  · simp only [gt_iff_lt, eq_comm]

theorem Time.Before_asymm (t u : Time) (h : u.Before t = true) :
    t.Before u = false ∧ t ≠ u := by
  constructor
  · unfold Time.Before at h ⊢
    rw [Nat.land_comm t.wall u.wall]
    split
    · rename_i hm
      rw [if_pos hm] at h
      simp only [decide_eq_true_eq, decide_eq_false_iff_not] at h ⊢
      omega
    · rename_i hm
      rw [if_neg hm] at h
      simp only [Bool.or_eq_true, Bool.and_eq_true, decide_eq_true_eq, Bool.or_eq_false_iff,
        Bool.and_eq_false_iff, decide_eq_false_iff_not] at h ⊢
      omega
  · rintro rfl
    unfold Time.Before at h
    split at h
    · simp at h
    · simp at h

theorem filterLoop_eq (t : Time) (E acc : List Event) :
    filterLoop t E acc
      = acc ++ E.filter (fun e => t.Before e.LastTimestamp || decide (t = e.LastTimestamp)) := by
  induction E generalizing acc with
  | nil => simp [filterLoop]
  | cons e rest ih =>
    unfold filterLoop
    by_cases hc : (t.Before e.LastTimestamp || decide (t = e.LastTimestamp)) = true
    · rw [if_pos hc, ih]
      simp only [List.filter_cons, hc, if_true, List.append_assoc, List.singleton_append]
    · rw [if_neg hc, ih]
      simp only [List.filter_cons, hc]
      rfl

theorem length_pos_iff_ne_empty (str : String) : 0 < str.length ↔ str ≠ "" := by
  cases str with
  | mk data =>
    cases data with
    | nil => simp [String.length]
    | cons c cs =>
      simp only [String.length, List.length_cons, Nat.zero_lt_succ, true_iff]
      intro h
      exact absurd (congrArg String.data h) (by simp)

theorem getFieldSetsLoop_eq (K : String) (reasons : List String) (acc : List FieldSet) :
    getFieldSetsLoop K reasons acc
      = acc ++ reasons.map (fun reason =>
          (if 0 < reason.length then
            mapSet (if 0 < K.length then mapSet ([] : FieldSet) "involvedObject.kind" K else [])
              "reason" reason
          else (if 0 < K.length then mapSet ([] : FieldSet) "involvedObject.kind" K else []))) := by
  induction reasons generalizing acc with
  | nil => simp [getFieldSetsLoop]
  | cons r rest ih =>
    unfold getFieldSetsLoop
    simp only [ih, List.map_cons, List.append_assoc, List.singleton_append]

theorem queryLoop_ok (client : Nat → FieldSet → Except String (List Event))
    (res : Nat → List Event) (fs asked : List FieldSet) (events : List Event)
    (hq : ∀ (i : Nat) (h : i < fs.length),
      client (asked.length + i) (fs.get ⟨i, h⟩) = .ok (res (asked.length + i))) :
    queryLoop client fs asked events
      = (asked ++ fs,
          .ok (events ++ ((List.range fs.length).map (fun i => res (asked.length + i))).flatten)) := by
  induction fs generalizing asked events with
  | nil => simp [queryLoop]
  | cons f rest ih =>
    have h0 := hq 0 (by simp)
    simp only [Nat.add_zero, List.get_eq_getElem, List.getElem_cons_zero] at h0
    unfold queryLoop
    rw [h0]
    simp only
    rw [ih (asked ++ [f]) (events ++ res asked.length)]
    · simp only [List.append_assoc, List.singleton_append, List.length_append, List.length_cons,
        List.length_nil, List.range_succ_eq_map, List.map_cons, List.map_map, List.flatten_cons,
        Nat.add_zero]
      congr 5
      apply List.map_congr_left
      intro i _
      simp only [Function.comp, Nat.succ_eq_add_one]
      congr 1
      omega
    · intro i h
      have hi := hq (i + 1) (by simp only [List.length_cons]; omega)
      simp only [List.get_eq_getElem, List.getElem_cons_succ] at hi
      simp only [List.length_append, List.length_cons, List.length_nil, List.get_eq_getElem]
      have e : asked.length + (0 + 1) + i = asked.length + (i + 1) := by omega
      rw [e]
      exact hi

theorem queryLoop_error (client : Nat → FieldSet → Except String (List Event))
    (fs asked : List FieldSet) (events : List Event)
    (hfail : ∃ (i : Nat) (h : i < fs.length) (err : String),
      client (asked.length + i) (fs.get ⟨i, h⟩) = .error err) :
    ∃ queries err, queryLoop client fs asked events = (queries, .error err) := by
  induction fs generalizing asked events with
  | nil =>
    obtain ⟨i, h, _⟩ := hfail
    exact absurd h (by simp)
  | cons f rest ih =>
    unfold queryLoop
    cases hc : client asked.length f with
    | error err => exact ⟨_, _, rfl⟩
    | ok e =>
      simp only
      apply ih
      obtain ⟨i, h, err, hi⟩ := hfail
      cases i with
      | zero =>
        simp only [Nat.add_zero, List.get_eq_getElem, List.getElem_cons_zero] at hi
        rw [hc] at hi
        cases hi
      | succ j =>
        refine ⟨j, by simpa using h, err, ?_⟩
        simp only [List.get_eq_getElem, List.getElem_cons_succ] at hi
        simp only [List.length_append, List.length_cons, List.length_nil, List.get_eq_getElem]
        have e : asked.length + (0 + 1) + j = asked.length + (j + 1) := by omega
        rw [e]
        exact hi

theorem bodyLoop_some (timeString : Time → String) (evs : List Event) (xs : List String) :
    bodyLoop timeString evs (some xs) = some (xs ++ evs.map (bodyLine timeString)) := by
  induction evs generalizing xs with
  | nil => simp [bodyLoop]
  | cons e rest ih => simp [bodyLoop, sliceAppend, ih]

theorem bodyLoop_none (timeString : Time → String) (e : Event) (rest : List Event) :
    bodyLoop timeString (e :: rest) none = some ((e :: rest).map (bodyLine timeString)) := by
  simp [bodyLoop, sliceAppend, bodyLoop_some]

theorem Start_attempts_aux (net : Nat → Dialer → Message → Option String)
    (reports : List Email) (tail : List Select)
    (htail : tail = [] ∨ ∃ rest, tail = Select.stop :: rest) (c : Controller) (w : Effects) :
    (Controller.Start net (reports.map Select.report ++ tail) c w).2.attempts
      = w.attempts ++ reports.filter (fun r => decide (r ≠ Email.zero)) := by
  induction reports generalizing c w with
  | nil =>
    rcases htail with rfl | ⟨rest, rfl⟩ <;> simp [Controller.Start]
  | cons r reports ih =>
    simp only [List.map_cons, List.cons_append]
    unfold Controller.Start
    by_cases hr : r = Email.zero
    · simp only [hr, ne_eq, not_true_eq_false, if_false]
      rw [ih]
      simp
    · simp only [ne_eq, hr, not_false_eq_true, if_true]
      rw [ih]
      cases (c.sendEmail (net w.attempts.length) r).err <;>
        simp [List.filter_cons, hr]

theorem mapSet_mid {β : Type} (pre rest : List (String × β)) (name : String) (v v' : β)
    (hpre : name ∉ pre.map Prod.fst) :
    mapSet (pre ++ (name, v) :: rest) name v' = pre ++ (name, v') :: rest := by
  induction pre with
  | nil => simp [mapSet]
  | cons p pre ih =>
    obtain ⟨k, x⟩ := p
    simp only [List.map_cons, List.mem_cons, not_or] at hpre
    have hk : ¬ k = name := fun h => hpre.1 h.symm
    show mapSet ((k, x) :: (pre ++ (name, v) :: rest)) name v' = _
    rw [mapSet, if_neg hk, ih hpre.2]
    rfl

theorem mapGet_mem {β : Type} (es : List (String × β)) (name : String) (v : β)
    (hget : mapGet es name = some v) : (name, v) ∈ es := by
  induction es with
  | nil => cases hget
  | cons p es ih =>
    obtain ⟨k, x⟩ := p
    rw [mapGet] at hget
    split at hget
    · rename_i hk
      cases hget
      rw [hk]
      exact List.mem_cons_self _ _
    · exact List.mem_cons_of_mem _ (ih hget)

theorem mapGet_map {β : Type} (f : β → β) (es : List (String × β)) (name : String) :
    mapGet (es.map (fun p => (p.1, f p.2))) name = (mapGet es name).map f := by
  induction es with
  | nil => rfl
  | cons p es ih =>
    obtain ⟨k, x⟩ := p
    simp only [List.map_cons, mapGet]
    split
    · rfl
    · exact ih

theorem parseConfigLoop_ok (parseDuration : String → Except String Int)
    (es pre : List (String × Report)) (c : Config)
    (hkeys : ((pre ++ es).map Prod.fst).Nodup) (hc : c.Reports = pre ++ es)
    (hok : ∀ p ∈ es, p.2.IntervalString = "" ∨ ∃ d, parseDuration p.2.IntervalString = .ok d) :
    parseConfigLoop parseDuration es c
      = ({ c with Reports := pre ++ es.map (fun p => (p.1, { p.2 with
          Interval :=
            if p.2.IntervalString = "" then 24 * Hour
            else match parseDuration p.2.IntervalString with
              | .ok d => d
              | .error _ => p.2.Interval })) }, none) := by
  induction es generalizing pre c with
  | nil =>
    simp only [parseConfigLoop, List.map_nil]
    rw [← hc]
  | cons e rest ih =>
    obtain ⟨name, report⟩ := e
    have hname : name ∉ pre.map Prod.fst := by
      simp only [List.map_append, List.map_cons, List.nodup_append, List.nodup_cons] at hkeys
      intro hmem
      exact hkeys.2.2 hmem (List.mem_cons_self _ _)
    have hkeys2 : ∀ (r : Report), (((pre ++ [(name, r)]) ++ rest).map Prod.fst).Nodup := by
      intro r
      simpa only [List.map_append, List.map_cons, List.map_nil, List.append_assoc,
        List.singleton_append] using hkeys
    have hok2 : ∀ p ∈ rest,
        p.2.IntervalString = "" ∨ ∃ d, parseDuration p.2.IntervalString = .ok d :=
      fun p hp => hok p (List.mem_cons_of_mem _ hp)
    unfold parseConfigLoop
    by_cases hempty : report.IntervalString = ""
    · rw [if_pos hempty]
      rw [ih (pre ++ [(name, { report with Interval := 24 * Hour })]) _ (hkeys2 _)
        (by simp only [hc]; rw [mapSet_mid pre rest name _ _ hname]; simp) hok2]
      simp [hempty]
    · rcases hok (name, report) (List.mem_cons_self _ _) with h | ⟨d, hd⟩
      · exact absurd h hempty
      · rw [if_neg hempty]
        simp only [hd]
        rw [ih (pre ++ [(name, { report with Interval := d })]) _ (hkeys2 _)
          (by simp only [hc]; rw [mapSet_mid pre rest name _ _ hname]; simp) hok2]
        simp [hempty, hd]

theorem parseConfigLoop_error (parseDuration : String → Except String Int)
    (es : List (String × Report)) (c : Config)
    (hbad : ∃ p ∈ es, p.2.IntervalString ≠ "" ∧ ∃ e, parseDuration p.2.IntervalString = .error e) :
    ∃ msg, (parseConfigLoop parseDuration es c).2 = some msg := by
  induction es generalizing c with
  | nil =>
    obtain ⟨p, hp, _⟩ := hbad
    exact absurd hp (List.not_mem_nil p)
  | cons e rest ih =>
    obtain ⟨name, report⟩ := e
    have hrest : (∃ e, report.IntervalString ≠ "" ∧ parseDuration report.IntervalString = .error e)
        ∨ ∃ p ∈ rest, p.2.IntervalString ≠ "" ∧ ∃ e, parseDuration p.2.IntervalString = .error e := by
      obtain ⟨p, hp, hne, e, he⟩ := hbad
      rcases List.mem_cons.1 hp with rfl | hp
      · exact Or.inl ⟨e, hne, he⟩
      · exact Or.inr ⟨p, hp, hne, e, he⟩
    unfold parseConfigLoop
    by_cases hempty : report.IntervalString = ""
    · rw [if_pos hempty]
      rcases hrest with ⟨_, hne, _⟩ | hrest
      · exact absurd hempty hne
      · exact ih _ hrest
    · rw [if_neg hempty]
      cases hpd : parseDuration report.IntervalString with
      | error err => exact ⟨_, rfl⟩
      | ok d =>
        simp only
        rcases hrest with ⟨e, _, he⟩ | hrest
        · rw [hpd] at he
          cases he
        · exact ih _ hrest

/-! ## The time filter -/

/-- C1: for every watermark (the scheduler's `lastReportTime`) and every list of events `E`,
`filterEventTimeRange E` is a sublist of `E` (original relative order, nothing added), it
contains every event of `E` whose `LastTimestamp` is after the watermark, each as often as it
occurs in `E`, and it contains no event whose `LastTimestamp` is before the watermark. -/
theorem filterEventTimeRange_stable (s : Scheduler) (E : List Event) :
    (s.filterEventTimeRange E).Sublist E
    ∧ (∀ e ∈ E, e.LastTimestamp.After s.lastReportTime = true → e ∈ s.filterEventTimeRange E)
    ∧ (∀ e, e.LastTimestamp.After s.lastReportTime = true →
        (s.filterEventTimeRange E).count e = E.count e)
    ∧ (∀ e ∈ E, e.LastTimestamp.Before s.lastReportTime = true → e ∉ s.filterEventTimeRange E) := by
  have hf := filterLoop_eq s.lastReportTime E []
  simp only [List.nil_append] at hf
  unfold Scheduler.filterEventTimeRange
  rw [hf]
  refine ⟨List.filter_sublist E, ?_, ?_, ?_⟩
  · intro e he hafter
    rw [Time.After_eq_Before] at hafter
    simp [List.mem_filter, he, hafter]
  · intro e hafter
    rw [Time.After_eq_Before] at hafter
    rw [List.count_filter]
    simp [hafter]
  · intro e _ hbefore hmem
    have hasym := Time.Before_asymm s.lastReportTime e.LastTimestamp hbefore
    rw [List.mem_filter] at hmem
    have hp := hmem.2
    simp only [Bool.or_eq_true, decide_eq_true_eq] at hp
    rcases hp with hp | hp
    · rw [hasym.1] at hp
      exact Bool.false_ne_true hp
    · exact hasym.2 hp

/-- C2, evaluated on the code: the watermark of `TestFilterEventTimeRange` (2019-01-15 00:00
UTC, built by `time.Date`) and an event whose `LastTimestamp` is the same instant as decoded
from the API (location `Local`). Neither time is before the other and `Equal` holds, yet the
filter drops the event, because `==` compares the location pointers. The same happens with
a watermark that carries a monotonic reading, as `metav1.Now()` returns it. -/
theorem filterEventTimeRange_drops_boundary :
    (jan15Local.Equal (jan2019 15) = true
      ∧ (jan2019 15).Before jan15Local = false ∧ jan15Local.Before (jan2019 15) = false
      ∧ (testScheduler (jan2019 15)).filterEventTimeRange [podEvent "foo4" jan15Local] = [])
    ∧ (jan15Local.Equal jan15Now = true
      ∧ jan15Now.Before jan15Local = false ∧ jan15Local.Before jan15Now = false
      ∧ (testScheduler jan15Now).filterEventTimeRange [podEvent "foo4" jan15Local] = []) := by
  decide

/-! ## Field sets -/

/-- C3: `getFieldSets K [r1..rn]` has exactly `n` entries, and the `i`-th entry is built from
`ri`: read at any key, it gives `K` at "involvedObject.kind" exactly when `K` is not empty,
`ri` at "reason" exactly when `ri` is not empty, and nothing at any other key. No reasons
give no field sets. -/
theorem getFieldSets_spec (K : String) (reasons : List String) :
    (getFieldSets K reasons).length = reasons.length
    ∧ (∀ (i : Nat) (key : String),
        ((getFieldSets K reasons)[i]?).map (fun field => mapGet field key)
          = (reasons[i]?).map (fun ri =>
              if key = "involvedObject.kind" then (if K ≠ "" then some K else none)
              else if key = "reason" then (if ri ≠ "" then some ri else none)
              else none))
    ∧ getFieldSets K [] = [] := by
  have hloop := getFieldSetsLoop_eq K reasons []
  simp only [List.nil_append] at hloop
  refine ⟨?_, ?_, rfl⟩
  · unfold getFieldSets
    rw [hloop, List.length_map]
  · intro i key
    unfold getFieldSets
    rw [hloop, List.getElem?_map]
    cases reasons[i]? with
    | none => rfl
    | some ri =>
      simp only [Option.map_some', Option.some.injEq]
      have hne : ("involvedObject.kind" : String) ≠ "reason" := by decide
      by_cases hK : K = "" <;> by_cases hr : ri = "" <;>
        by_cases hk1 : key = "involvedObject.kind" <;> by_cases hk2 : key = "reason" <;>
        simp_all [mapSet, mapGet, length_pos_iff_ne_empty, eq_comm]

/-! ## The cycle -/

/-- C4: when every query of the cycle succeeds (`res i` is the answer to the `i`-th one) and
the time filter, applied with the watermark to the concatenation of the answers in field-set
order, leaves something, `getEvents` sends exactly one Email: the report's recipients, the
subject built from the description and the watermark from before the cycle, and one body line
per filtered event, in the filtered order. -/
theorem getEvents_sends_report (client : Nat → FieldSet → Except String (List Event))
    (timeString : Time → String) (now : Time) (s : Scheduler) (res : Nat → List Event)
    (hq : ∀ (i : Nat) (h : i < s.fieldSets.length), client i (s.fieldSets.get ⟨i, h⟩) = .ok (res i))
    (hne : s.filterEventTimeRange ((List.range s.fieldSets.length).map res).flatten ≠ []) :
    (s.getEvents client timeString now).sent =
      [{ Recipients := s.report.EmailRecipients
         Subject := "Event report: " ++ s.report.Description ++ " since ["
           ++ timeString s.lastReportTime ++ "]"
         Body := some ((s.filterEventTimeRange ((List.range s.fieldSets.length).map res).flatten).map
           (fun e => "Name:" ++ e.Name ++ "\nKind:" ++ e.InvolvedObject.Kind ++ "\nType:"
             ++ e.EventType ++ "\nReason:" ++ e.Reason ++ "\nMessage:" ++ e.Message
             ++ "\nLastTimestamp:" ++ timeString e.LastTimestamp ++ "\n")) }] := by
  have hloop := queryLoop_ok client res s.fieldSets [] []
    (by simpa only [List.length_nil, Nat.zero_add] using hq)
  simp only [List.length_nil, Nat.zero_add, List.nil_append] at hloop
  unfold Scheduler.getEvents
  simp only [hloop]
  have hfilter : ∀ (e : Email), Scheduler.filterEventTimeRange { s with email := e }
      ((List.range s.fieldSets.length).map res).flatten
        = s.filterEventTimeRange ((List.range s.fieldSets.length).map res).flatten := fun _ => rfl
  simp only [hfilter]
  cases hF : s.filterEventTimeRange ((List.range s.fieldSets.length).map res).flatten with
  | nil => exact absurd hF hne
  | cons e rest =>
    simp only [List.length_cons, Nat.zero_lt_succ, if_true, bodyLoop_none, sliceLen,
      List.length_map, List.nil_append]
    rfl

/-- Scenario A (`TestGetEvents`): the Email the cycle sends is the expected one. -/
theorem getEvents_sends_report_scenarioA :
    ((testScheduler (jan2019 14)).getEvents (fun _ _ => .ok [podEvent "foo" (jan2019 15)])
        utcString (jan2019 16)).sent =
      [{ Recipients := some ["test@test.com"]
         Body := some ["Name:foo\nKind:Pod\nType:Normal\nReason:Started\nMessage:some verbose message: 1\nLastTimestamp:2019-01-15 00:00:00 +0000 UTC\n"]
         Subject := "Event report: test scheduler since [2019-01-14 00:00:00 +0000 UTC]" }] :=
  (getEvents_sends_report (fun _ _ => .ok [podEvent "foo" (jan2019 15)]) utcString (jan2019 16)
    (testScheduler (jan2019 14)) (fun _ => [podEvent "foo" (jan2019 15)])
    (fun _ _ => rfl) (by decide)).trans (by decide)

/-- C5: when every query of the cycle succeeds and the time filter leaves nothing,
`getEvents` sends exactly one Email and it is the zero value `Email{}`. A scheduler without
field sets, which is what an empty list of reasons gives, makes no query at all and sends the
zero value as well. -/
theorem getEvents_sends_empty (client : Nat → FieldSet → Except String (List Event))
    (timeString : Time → String) (now : Time) (s : Scheduler) :
    (∀ (res : Nat → List Event),
      (∀ (i : Nat) (h : i < s.fieldSets.length), client i (s.fieldSets.get ⟨i, h⟩) = .ok (res i)) →
      s.filterEventTimeRange ((List.range s.fieldSets.length).map res).flatten = [] →
      (s.getEvents client timeString now).sent = [Email.zero])
    ∧ (s.fieldSets = getFieldSets s.report.Kind s.report.Reasons → s.report.Reasons = [] →
      (s.getEvents client timeString now).queries = []
      ∧ (s.getEvents client timeString now).sent = [Email.zero]) := by
  have hfilter : ∀ (e : Email) (evs : List Event),
      Scheduler.filterEventTimeRange { s with email := e } evs = s.filterEventTimeRange evs :=
    fun _ _ => rfl
  constructor
  · intro res hq hempty
    have hloop := queryLoop_ok client res s.fieldSets [] []
      (by simpa only [List.length_nil, Nat.zero_add] using hq)
    simp only [List.length_nil, Nat.zero_add, List.nil_append] at hloop
    unfold Scheduler.getEvents
    simp only [hloop, hfilter, hempty]
    rfl
  · intro hfs hreasons
    have hnil : s.fieldSets = [] := by rw [hfs, hreasons]; rfl
    unfold Scheduler.getEvents
    simp only [hnil, queryLoop, hfilter]
    exact ⟨trivial, rfl⟩

/-- Scenario B: the only event lies before the watermark, so the cycle sends `Email{}`; and
the scheduler of a report without reasons sends `Email{}` without a query. -/
theorem getEvents_sends_empty_scenarioB :
    ((testScheduler (jan2019 14)).getEvents (fun _ _ => .ok [podEvent "foo" (jan2019 13)])
        utcString (jan2019 16)).sent = [Email.zero]
    ∧ ((NewScheduler (jan2019 14) "none" { testReport with Reasons := [] }).getEvents
        (fun _ _ => .ok [podEvent "foo" (jan2019 15)]) utcString (jan2019 16)).queries = [] :=
  ⟨(getEvents_sends_empty (fun _ _ => .ok [podEvent "foo" (jan2019 13)]) utcString (jan2019 16)
      (testScheduler (jan2019 14))).1 (fun _ => [podEvent "foo" (jan2019 13)]) (fun _ _ => rfl)
      (by decide),
   ((getEvents_sends_empty (fun _ _ => .ok [podEvent "foo" (jan2019 15)]) utcString (jan2019 16)
      (NewScheduler (jan2019 14) "none" { testReport with Reasons := [] })).2 rfl rfl).1⟩

/-- C6: when the query for some field set fails (the `i`-th call, made with the `i`-th field
set, is answered with an error), `getEvents` sends nothing on the channel, whatever the
earlier queries returned. -/
theorem getEvents_query_failure_sends_nothing
    (client : Nat → FieldSet → Except String (List Event))
    (timeString : Time → String) (now : Time) (s : Scheduler)
    (i : Nat) (h : i < s.fieldSets.length) (err : String)
    (hfail : client i (s.fieldSets.get ⟨i, h⟩) = .error err) :
    (s.getEvents client timeString now).sent = [] := by
  obtain ⟨queries, err', hloop⟩ := queryLoop_error client s.fieldSets [] []
    ⟨i, h, err, by simpa only [List.length_nil, Nat.zero_add] using hfail⟩
  unfold Scheduler.getEvents
  simp only [hloop]

/-- A report with two reasons: the first query returns an event inside the time window, the
second fails; nothing is sent. -/
theorem getEvents_query_failure_sends_nothing_partial :
    ((NewScheduler (jan2019 14) "two" { testReport with Reasons := ["Started", "Created"] }).getEvents
        (fun i _ => if i = 0 then .ok [podEvent "foo" (jan2019 15)] else .error "timeout")
        utcString (jan2019 16)).sent = [] :=
  getEvents_query_failure_sends_nothing
    (fun i _ => if i = 0 then .ok [podEvent "foo" (jan2019 15)] else .error "timeout")
    utcString (jan2019 16)
    (NewScheduler (jan2019 14) "two" { testReport with Reasons := ["Started", "Created"] })
    1 (by decide) "timeout" rfl

/-- C7: after `getEvents`, `lastReportTime` is `now` when every query succeeded (whatever the
filter left), and is the old watermark when some query failed. -/
theorem getEvents_watermark (client : Nat → FieldSet → Except String (List Event))
    (timeString : Time → String) (now : Time) (s : Scheduler) :
    ((∀ (i : Nat) (h : i < s.fieldSets.length), ∃ es, client i (s.fieldSets.get ⟨i, h⟩) = .ok es) →
      (s.getEvents client timeString now).sched.lastReportTime = now)
    ∧ ((∃ (i : Nat) (h : i < s.fieldSets.length) (err : String),
          client i (s.fieldSets.get ⟨i, h⟩) = .error err) →
      (s.getEvents client timeString now).sched.lastReportTime = s.lastReportTime) := by
  constructor
  · intro hq
    have hres : ∀ (i : Nat) (h : i < s.fieldSets.length),
        client i (s.fieldSets.get ⟨i, h⟩)
          = .ok (match client i (s.fieldSets.getD i []) with | .ok es => es | .error _ => []) := by
      intro i h
      obtain ⟨es, hes⟩ := hq i h
      have hD : s.fieldSets.getD i [] = s.fieldSets.get ⟨i, h⟩ := by
        simp [List.getD_eq_getElem?_getD, List.getElem?_eq_getElem h]
      rw [hD, hes]
    have hloop := queryLoop_ok client _ s.fieldSets [] []
      (by simpa only [List.length_nil, Nat.zero_add] using hres)
    unfold Scheduler.getEvents
    simp only [hloop]
  · intro hfail
    obtain ⟨queries, err', hloop⟩ := queryLoop_error client s.fieldSets [] []
      (by simpa only [List.length_nil, Nat.zero_add] using hfail)
    unfold Scheduler.getEvents
    simp only [hloop]

/-- The watermark on the three kinds of cycle: a report sent, nothing found, a failed query. -/
theorem getEvents_watermark_scenarios :
    ((testScheduler (jan2019 14)).getEvents (fun _ _ => .ok [podEvent "foo" (jan2019 15)])
        utcString (jan2019 16)).sched.lastReportTime = jan2019 16
    ∧ ((testScheduler (jan2019 14)).getEvents (fun _ _ => .ok [])
        utcString (jan2019 16)).sched.lastReportTime = jan2019 16
    ∧ ((testScheduler (jan2019 14)).getEvents (fun _ _ => .error "timeout")
        utcString (jan2019 16)).sched.lastReportTime = jan2019 14 :=
  ⟨(getEvents_watermark (fun _ _ => .ok [podEvent "foo" (jan2019 15)]) utcString (jan2019 16)
      (testScheduler (jan2019 14))).1 (fun _ _ => ⟨_, rfl⟩),
   (getEvents_watermark (fun _ _ => .ok []) utcString (jan2019 16)
      (testScheduler (jan2019 14))).1 (fun _ _ => ⟨_, rfl⟩),
   (getEvents_watermark (fun _ _ => .error "timeout") utcString (jan2019 16)
      (testScheduler (jan2019 14))).2 ⟨0, by decide, "timeout", rfl⟩⟩

/-! ## The controller -/

/-- C8: in a run of `Start` that receives the Emails `reports` (and then stops, or goes on
waiting), `sendEmail` is called for exactly the received Emails that are not the zero value
`Email{}`, in the order received and whatever the transport answers. Receiving `Email{}`
changes nothing at all (no call, no log line). A delivery that fails adds the error to the log
and the loop goes on with the next case of the `select`. -/
theorem Start_delivers_unless_empty (net : Nat → Dialer → Message → Option String)
    (c : Controller) (w : Effects) (reports : List Email) (rest : List Select) :
    (Controller.Start net (reports.map Select.report ++ Select.stop :: rest) c w).2.attempts
        = w.attempts ++ reports.filter (fun r => decide (r ≠ Email.zero))
    ∧ (Controller.Start net (reports.map Select.report) c w).2.attempts
        = w.attempts ++ reports.filter (fun r => decide (r ≠ Email.zero))
    ∧ Controller.Start net (Select.report Email.zero :: rest) c w = Controller.Start net rest c w
    ∧ (∀ (r : Email) (err : String), r ≠ Email.zero →
        (c.sendEmail (net w.attempts.length) r).err = some err →
        Controller.Start net (Select.report r :: rest) c w
          = Controller.Start net rest (c.sendEmail (net w.attempts.length) r).ctl
              { attempts := w.attempts ++ [r]
                dials := w.dials ++ (c.sendEmail (net w.attempts.length) r).dials
                logs := w.logs ++
                  [{ level := "info", msg := "report received", field := r.Subject },
                   { level := "error", msg := "couldn not send email", field := err }] }) := by
  refine ⟨Start_attempts_aux net reports _ (Or.inr ⟨rest, rfl⟩) c w, ?_, ?_, ?_⟩
  · have h := Start_attempts_aux net reports [] (Or.inl rfl) c w
    simpa only [List.append_nil] using h
  · simp only [Controller.Start, ne_eq, not_true_eq_false, if_false]
  · intro r err hr herr
    rw [Controller.Start.eq_3]
    simp only [ne_eq, hr, not_false_eq_true, if_true, herr, List.append_assoc,
      List.singleton_append]

/-- A run of the loop: `Email{}` is skipped, the next Email is attempted and its delivery
fails, an Email whose recipients are an empty but non-nil slice is not `Email{}` and is
attempted too, and nothing is received after the stop. -/
theorem Start_delivers_unless_empty_run :
    (Controller.Start (fun i _ _ => if i = 0 then some "connection refused" else none)
        ([Email.zero, { Email.zero with Subject := "a" }, { Email.zero with Recipients := some [] }].map
            Select.report
          ++ Select.stop :: [Select.report { Email.zero with Subject := "b" }])
        (NewController testConfig.EmailSettings) { attempts := [], dials := [], logs := [] }).2.attempts
      = [{ Email.zero with Subject := "a" }, { Email.zero with Recipients := some [] }] :=
  (Start_delivers_unless_empty (fun i _ _ => if i = 0 then some "connection refused" else none)
    (NewController testConfig.EmailSettings) { attempts := [], dials := [], logs := [] }
    [Email.zero, { Email.zero with Subject := "a" }, { Email.zero with Recipients := some [] }]
    [Select.report { Email.zero with Subject := "b" }]).1.trans (by decide)

/-- C9: `sendEmail` returns "no smtp server is configured" when the host is empty, else
"no port specified in email settings" when the port is zero, in both cases without opening a
transport session; otherwise it opens exactly one session, with the dialer built from the
settings and the message built from the Email, and returns what the transport answers. -/
theorem sendEmail_checks_settings (dialAndSend : Dialer → Message → Option String)
    (c : Controller) (email : Email) :
    (c.emailSettings.SMTPServer = "" →
      (c.sendEmail dialAndSend email).err = some "no smtp server is configured"
      ∧ (c.sendEmail dialAndSend email).dials = [])
    ∧ (c.emailSettings.SMTPServer ≠ "" → c.emailSettings.Port = 0 →
      (c.sendEmail dialAndSend email).err = some "no port specified in email settings"
      ∧ (c.sendEmail dialAndSend email).dials = [])
    ∧ (c.emailSettings.SMTPServer ≠ "" → c.emailSettings.Port ≠ 0 →
      (c.sendEmail dialAndSend email).err
        = dialAndSend
            (NewDialer c.emailSettings.SMTPServer c.emailSettings.Port c.emailSettings.Username
              c.emailSettings.Password)
            { From := ["event-reporter@test.com"], To := sliceElems email.Recipients,
              Subject := [email.Subject], contentType := "text/html",
              body := String.intercalate "\n" (sliceElems email.Body) }
      ∧ (c.sendEmail dialAndSend email).dials
        = [(NewDialer c.emailSettings.SMTPServer c.emailSettings.Port c.emailSettings.Username
              c.emailSettings.Password,
            { From := ["event-reporter@test.com"], To := sliceElems email.Recipients,
              Subject := [email.Subject], contentType := "text/html",
              body := String.intercalate "\n" (sliceElems email.Body) })]) := by
  have hlen : ∀ (str : String), str.length = 0 ↔ str = "" := by
    intro str
    have h := length_pos_iff_ne_empty str
    constructor
    · intro h0
      by_contra hne
      exact absurd (h.2 hne) (by omega)
    · intro he
      rw [he]
      rfl
  refine ⟨?_, ?_, ?_⟩
  · intro hhost
    unfold Controller.sendEmail
    simp only [(hlen _).2 hhost, if_true, and_self]
  · intro hhost hport
    have hl : ¬ c.emailSettings.SMTPServer.length = 0 := fun h0 => hhost ((hlen _).1 h0)
    unfold Controller.sendEmail
    simp only [hl, hport, if_false, if_true, and_self]
  · intro hhost hport
    have hl : ¬ c.emailSettings.SMTPServer.length = 0 := fun h0 => hhost ((hlen _).1 h0)
    unfold Controller.sendEmail
    simp only [hl, hport, if_false]
    cases dialAndSend _ _ <;> exact ⟨rfl, rfl⟩

/-- Scenario D: with an empty SMTP host the delivery call returns the configuration error
and opens no session, although the transport would have accepted the message. -/
theorem sendEmail_checks_settings_scenarioD :
    ((NewController { testConfig.EmailSettings with SMTPServer := "" }).sendEmail (fun _ _ => none)
        { Email.zero with Subject := "a" }).err = some "no smtp server is configured"
    ∧ ((NewController { testConfig.EmailSettings with SMTPServer := "" }).sendEmail (fun _ _ => none)
        { Email.zero with Subject := "a" }).dials = [] :=
  (sendEmail_checks_settings (fun _ _ => none)
    (NewController { testConfig.EmailSettings with SMTPServer := "" })
    { Email.zero with Subject := "a" }).1 rfl

/-! ## The configuration -/

/-- C10: on a configuration (a map: the report names are pairwise distinct) in which every
report's interval string is empty or parses, `parseConfig` returns no error and afterwards the
names are as before and every report is as before except for `Interval`, which is 24 hours
when the interval string is empty and the parsed duration otherwise. When the non-empty
interval string of some report does not parse, `parseConfig` returns an error. -/
theorem parseConfig_spec (parseDuration : String → Except String Int) (c : Config)
    (hkeys : (c.Reports.map Prod.fst).Nodup) :
    ((∀ p ∈ c.Reports, p.2.IntervalString = "" ∨ ∃ d, parseDuration p.2.IntervalString = .ok d) →
      (c.parseConfig parseDuration).2 = none
      ∧ (c.parseConfig parseDuration).1.EmailSettings = c.EmailSettings
      ∧ (c.parseConfig parseDuration).1.Reports.map Prod.fst = c.Reports.map Prod.fst
      ∧ ∀ (name : String) (r : Report), mapGet c.Reports name = some r →
          ∃ r', mapGet (c.parseConfig parseDuration).1.Reports name = some r'
            ∧ r'.Description = r.Description ∧ r'.Kind = r.Kind ∧ r'.Reasons = r.Reasons
            ∧ r'.IntervalString = r.IntervalString ∧ r'.EmailRecipients = r.EmailRecipients
            ∧ (r.IntervalString = "" → r'.Interval = 24 * 3600 * 1000000000)
            ∧ (r.IntervalString ≠ "" → parseDuration r.IntervalString = .ok r'.Interval))
    ∧ ((∃ p ∈ c.Reports, p.2.IntervalString ≠ "" ∧
          ∃ e, parseDuration p.2.IntervalString = .error e) →
      ∃ msg, (c.parseConfig parseDuration).2 = some msg) := by
  constructor
  · intro hok
    have hloop := parseConfigLoop_ok parseDuration c.Reports [] c
      (by simpa only [List.nil_append] using hkeys) rfl hok
    unfold Config.parseConfig
    rw [hloop]
    refine ⟨rfl, rfl, ?_, ?_⟩
    · simp only [List.nil_append, List.map_map]
      rfl
    · intro name r hget
      simp only [List.nil_append]
      rw [mapGet_map (fun (r : Report) => { r with
        Interval :=
          if r.IntervalString = "" then 24 * Hour
          else match parseDuration r.IntervalString with
            | .ok d => d
            | .error _ => r.Interval }) c.Reports name, hget]
      refine ⟨_, rfl, rfl, rfl, rfl, rfl, rfl, ?_, ?_⟩
      · intro hempty
        simp only [hempty, if_true]
        rfl
      · intro hne
        rcases hok (name, r) (mapGet_mem c.Reports name r hget) with h | ⟨d, hd⟩
        · exact absurd h hne
        · simp only [hne, if_false, hd]
  · intro hbad
    exact parseConfigLoop_error parseDuration c.Reports c hbad

/-- The configuration with a default and an hourly report: no error, 24 hours for the first
and one hour for the second. -/
theorem parseConfig_spec_testConfig :
    (testConfig.parseConfig parseHourOnly).2 = none
    ∧ ((testConfig.parseConfig parseHourOnly).1.Reports.map (fun p => (p.1, p.2.Interval))
        = [("daily", 86400000000000), ("hourly", 3600000000000)]) :=
  ⟨((parseConfig_spec parseHourOnly testConfig (by decide)).1 (by
      intro p hp
      simp only [testConfig, List.mem_cons, List.mem_singleton, List.not_mem_nil, or_false] at hp
      rcases hp with rfl | rfl
      · exact Or.inl rfl
      · exact Or.inr ⟨Hour, rfl⟩)).1, by decide⟩

end EventsReporter
